import Mathlib

/-!
Verification of the request-orchestration layer of an asynchronous exchange
client (files `aiobinance/binance.py`, `aiobinance/base/asyncExchange.py`,
`aiobinance/base/baseEndpoint.py`).

The Python code is shallowly embedded: millisecond timestamps are `Nat`,
Python `range` with a positive step is `pyRange`, parameter dictionaries are
association lists in insertion order, and the network is abstracted as an
oracle function supplying the decoded response for each issued request.

A modelling point that matters for the fan-out functions: in
`_split_request_interval` and `_paginatedRequests` a single `payload`
dictionary is mutated inside the loop while `create_task` only queues the
coroutines; no `await` occurs inside the loop, so none of the queued tasks
runs before `await gather(...)`.  Every queued task therefore reads the
shared dictionary only after the loop has finished, i.e. every concurrent
sub-request carries the final state of `payload`.  The embedding of those
two functions reproduces this (see `issuedSlices` and `paginatedRequests`).
-/

namespace Aiobinance

/-- Python `range(a, b, s)` for a positive step `s`: the values
`a, a + s, a + 2*s, ...` strictly below `b`. -/
def pyRange (a b s : Nat) : List Nat :=
  (List.range ((b - a + s - 1) / s)).map (fun i => a + i * s)

/-!
## TimeRangeSplitter — `BinanceAsync._split_request_interval`

```python
for start in range(START_MS, END_MS, maxRange):
    payload["startTime"] = start
    payload["endTime"] = min(END_MS, start + maxRange)
    tasks.append(create_task(func(endpoint, payload)))
resp = await gather(*tasks)
data = [x for l in resp for x in l]
```
-/

/-- The slice bounds successively assigned to `payload` by the loop of
`_split_request_interval`: for each cursor produced by
`range(START_MS, END_MS, maxRange)` the pair
`(cursor, min(END_MS, cursor + maxRange))`. -/
def splitSlices (startMs endMs maxRange : Nat) : List (Nat × Nat) :=
  (pyRange startMs endMs maxRange).map (fun s => (s, min endMs (s + maxRange)))

/-- The windows carried by the requests that are actually issued: every task
is queued by `create_task` and only starts after `await gather`, at which
point the shared `payload` dictionary holds the bounds assigned by the last
loop iteration.  So all `n` sub-requests carry the last slice. -/
def issuedSlices (startMs endMs maxRange : Nat) : List (Nat × Nat) :=
  match (splitSlices startMs endMs maxRange).getLast? with
  | Option.none => []
  | some last => List.replicate (splitSlices startMs endMs maxRange).length last

/-- `_split_request_interval`: issue one request per queued task (each task
reads the shared payload after the loop, see `issuedSlices`), gather the
responses in task-creation order, and flatten. -/
def splitRequestInterval {α : Type} (startMs endMs maxRange : Nat)
    (func : Nat × Nat → List α) : List α :=
  ((issuedSlices startMs endMs maxRange).map func).flatten

/-- The slices described by the specification: one slice
`[cursor, min(window.end, cursor + maxSpanMillis)]` for each cursor
`start, start + maxSpan, start + 2*maxSpan, ...` strictly below the window
end. -/
def specSlices (startMs endMs maxSpan : Nat) : List (Nat × Nat) :=
  (List.range ((endMs - startMs + maxSpan - 1) / maxSpan)).map
    (fun k => (startMs + k * maxSpan, min endMs (startMs + k * maxSpan + maxSpan)))

/-!
## RequestExecutor — `BinanceAsync._request` and
`AsyncExchange._checkHTTPErrors`

`_request` acquires the rate limiter, prepares the payload, performs the
HTTP call and then runs `data = await resp.json()` and returns `data`.  It
never inspects `resp.status` and never raises on a non-200 status; the only
failure modes are a transport failure while connecting and a body that is
not decodable as JSON.  `_checkHTTPErrors` (the fixed status-code table) is
defined on the base class but is called from nowhere in the package.
-/

/-- The failures `_request` can actually produce.  There is no constructor
carrying an HTTP status code because no code path raises one. -/
inductive RequestError where
  | transportError
  | decodeError
deriving DecidableEq

/-- An HTTP response as seen by `_request`: a status code and, when the body
is valid JSON, its decoded form. -/
structure HttpResponse (α : Type) where
  status : Nat
  jsonBody : Option α
deriving DecidableEq

/-- `BinanceAsync._request` after the transport layer returned a response:
decode the body with `resp.json()` and return it.  The status code is never
consulted. -/
def request {α : Type} (resp : HttpResponse α) : Except RequestError α :=
  match resp.jsonBody with
  | some d => Except.ok d
  | Option.none => Except.error RequestError.decodeError

/-- `AsyncExchange._checkHTTPErrors`: maps a non-200 status code to a
human-readable message (and returns `None` for 200). -/
def checkHTTPErrors (code : Nat) : Option String :=
  if code ≠ 200 then
    some (match code with
      | 400 => "Bad request. Need to send the request with GET / POST (must be capitalized)"
      | 401 => "Unauthorized. 1. Invalid API Key; 2. Need to put authentication params in the request header"
      | 403 => "Forbidden request. Possible causes: 1. IP rate limit breached; 2. You send GET request with an empty json body"
      | 404 => "Cannot find path. Possible causes: 1. Wrong path"
      | 405 => "Method Not Allowed. You tried to access the resource with an invalid method"
      | 500 => "Internal Server Error. Try again later"
      | 503 => "Service Unavailable. Possible causes: 1. Maintenance. Try again later"
      | _ => "Unknown error.")
  else Option.none

/-!
## PageFanoutPaginator — `BinanceAsync._paginatedRequests`

```python
payload[pageKey] = 1
resp = await self._request(endPoint=endPoint, params=payload)
data.extend(resp[dataKey])
tasks = []
for _ in range(itemsPerRequest, resp[totalKey] + 1, itemsPerRequest):
    payload[pageKey] += 1
    tasks.append(create_task(self._request(endPoint=endPoint, params=payload)))
resp = await gather(*tasks)
data.extend([x for r in resp for x in r[dataKey]])
```

The network is abstracted as `fetch : Nat → PageResp α`, the decoded
response for a request carrying a given page number.  The first request is
awaited while `payload[pageKey] = 1`, so it really fetches page 1.  The
follow-up tasks are only queued; they all run after the loop, reading the
shared `payload` whose page field then holds its final value.
-/

/-- The decoded response of the paginated endpoint: the page items under
`dataKey` and the declared total under `totalKey`. -/
structure PageResp (α : Type) where
  data : List α
  total : Nat
deriving DecidableEq

/-- The number of follow-up tasks queued by the loop: the length of
`range(itemsPerRequest, total + 1, itemsPerRequest)`. -/
def followUpCount (itemsPerRequest total : Nat) : Nat :=
  (pyRange itemsPerRequest (total + 1) itemsPerRequest).length

/-- The successive values `payload[pageKey]` takes during the loop
(`2, 3, ...`), one per queued task. -/
def loopPageValues (itemsPerRequest total : Nat) : List Nat :=
  (List.range (followUpCount itemsPerRequest total)).map (fun i => i + 2)

/-- The page numbers carried by the follow-up requests actually issued:
every queued task reads the shared `payload` dictionary after the loop, so
each carries the final page value `1 + followUpCount`. -/
def issuedPages (itemsPerRequest total : Nat) : List Nat :=
  List.replicate (followUpCount itemsPerRequest total)
    (1 + followUpCount itemsPerRequest total)

/-- `BinanceAsync._paginatedRequests`: fetch page 1 sequentially, queue one
task per loop iteration (all of which end up requesting the final page
value, see `issuedPages`), gather in task order, and concatenate the
`dataKey` fields. -/
def paginatedRequests {α : Type} (itemsPerRequest : Nat)
    (fetch : Nat → PageResp α) : List α :=
  let resp := fetch 1
  let pages := issuedPages itemsPerRequest resp.total
  resp.data ++ ((pages.map fetch).map PageResp.data).flatten

/-!
## CursorPaginator — `BinanceAsync._tradesCycle`

The mock endpoint is a script: the list of decoded responses returned to
the successive requests, in fetch order.  A trade only matters through its
`id` field (used to advance the cursor).  The result pairs the number of
requests issued with the returned list; `Option.none` means the script ran
out of responses (the real network always answers, so claims only use
scripts long enough for the requests they induce).
-/

/-- A trade as used by the cursor advance (`resp[-1]["id"] + 1`). -/
structure Trade where
  id : Nat
deriving DecidableEq

/-- The parameter dictionary built by `spotTrades` and consumed by
`_tradesCycle`, field for field. -/
structure TradesParams where
  symbol : String
  orderId : Option Nat
  startTime : Option Nat
  endTime : Option Nat
  fromId : Option Nat
  limit : Nat
deriving DecidableEq

/-- Python truthiness of an optional integer: `None` and `0` are falsy. -/
def truthy : Option Nat → Bool
  | Option.none => false
  | some n => n ≠ 0

/-- The `while not enforceLimit` loop of `_tradesCycle`, entered with the
response `resp` of the request just issued, the remaining script, the
accumulated data and the number of requests issued so far.  Each iteration
extends the accumulator, stops on a partial page, otherwise advances
`fromId` to the last id plus one, drops `startTime`, and issues the next
request. -/
def tradesLoop (limit : Nat) (payload : TradesParams) (resp : List Trade)
    (script : List (List Trade)) (acc : List Trade) (count : Nat) :
    Option (Nat × List Trade) :=
  let acc := acc ++ resp
  if resp.length < limit then
    some (count, acc)
  else
    match resp.getLast? with
    | Option.none => Option.none
    | some lastTrade =>
      let payload := { payload with
        fromId := some (lastTrade.id + 1), startTime := Option.none }
      match script with
      | [] => Option.none
      | resp2 :: rest => tradesLoop limit payload resp2 rest acc (count + 1)

/-- `BinanceAsync._tradesCycle`: issue the first request; if
`payload["endTime"]` is truthy return that response as is; otherwise, when
`enforceLimit` holds the while loop never runs and the initial empty `data`
list is returned; else enter the pagination loop. -/
def tradesCycle (params : TradesParams) (enforceLimit : Bool)
    (script : List (List Trade)) : Option (Nat × List Trade) :=
  match script with
  | [] => Option.none
  | resp :: rest =>
    if truthy params.endTime then some (1, resp)
    else if enforceLimit then some (1, [])
    else tradesLoop params.limit params resp rest [] 1

/-!
## RequestEnvelope — `BinanceAsync._preparePayload`

Parameter values are Python objects: `None`, booleans, integers, strings
and lists.  A parameter dictionary is an association list in insertion
order (the source iterates `params.items()` and fills a fresh dict, so
insertion order is preserved; the keys of the incoming dict are unique).
-/

/-- A Python parameter value as it occurs in this client. -/
inductive PyVal where
  | vNone
  | vBool (b : Bool)
  | vInt (n : Int)
  | vStr (s : String)
  | vList (xs : List PyVal)

mutual

/-- `json.dumps` with compact separators `(",", ":")`.  String escaping is
omitted: the payloads of this client only carry plain symbol names. -/
def jsonDumps : PyVal → String
  | PyVal.vNone => "null"
  | PyVal.vBool true => "true"
  | PyVal.vBool false => "false"
  | PyVal.vInt n => toString n
  | PyVal.vStr s => "\"" ++ s ++ "\""
  | PyVal.vList xs => "[" ++ jsonDumpsList xs ++ "]"

/-- Comma-joined compact JSON of the elements of a list. -/
def jsonDumpsList : List PyVal → String
  | [] => ""
  | [x] => jsonDumps x
  | x :: y :: rest => jsonDumps x ++ "," ++ jsonDumpsList (y :: rest)

end

/-- The skip condition of `_preparePayload`:
`v is None or (hasattr(v, "__len__") and len(v) == 0)`.  Of the value kinds
occurring here, strings and lists have `__len__`. -/
def dropValue : PyVal → Bool
  | PyVal.vNone => true
  | PyVal.vStr s => s.length == 0
  | PyVal.vList xs => xs.isEmpty
  | _ => false

/-- The per-entry conversion of `_preparePayload`: booleans become the
lowercase strings of `str(v).lower()`, lists become compact JSON text, any
other kept value stays verbatim. -/
def serializeValue : PyVal → PyVal
  | PyVal.vBool b => PyVal.vStr (if b then "true" else "false")
  | PyVal.vList xs => PyVal.vStr (jsonDumps (PyVal.vList xs))
  | v => v

/-- `BinanceAsync._preparePayload`: iterate over `params.items()`, skip
`None` values and empty collections, convert the kept values
(`serializeValue`), and for a signed endpoint append `recvWindow`, the
millisecond timestamp and the HMAC signature last.  The timestamp and
signature are inputs here: the clock and HMAC-SHA256 live outside the
orchestration layer. -/
def preparePayload (params : List (String × PyVal)) (signed : Bool)
    (recvWindow timestamp signature : String) : List (String × PyVal) :=
  let payload := params.foldl
    (fun payload kv =>
      if dropValue kv.2 then payload
      else payload ++ [(kv.1, serializeValue kv.2)])
    []
  if signed then
    payload ++ [("recvWindow", PyVal.vStr recvWindow),
                ("timestamp", PyVal.vStr timestamp),
                ("signature", PyVal.vStr signature)]
  else payload

/-- The entry transformation described by the specification, applied
keywise: drop a key whose value is `None` or an empty collection, map a
boolean to the lowercase literal string, a list to compact JSON text, and
keep any other value verbatim. -/
def specEntry (kv : String × PyVal) : Option (String × PyVal) :=
  match kv.2 with
  | PyVal.vNone => Option.none
  | PyVal.vBool b => some (kv.1, PyVal.vStr (if b then "true" else "false"))
  | PyVal.vStr s => if s.length == 0 then Option.none else some (kv.1, PyVal.vStr s)
  | PyVal.vList xs =>
    if xs.isEmpty then Option.none
    else some (kv.1, PyVal.vStr (jsonDumps (PyVal.vList xs)))
  | v => some (kv.1, v)

/-!
## `BinanceAsync.marketInfo` and `_prepareSymbol`

`_prepareSymbol` runs `re.sub("[^A-Za-z0-9]", "", symbol).upper()`;
`re.sub` applied to `None` raises `TypeError`.  `marketInfo` builds its
parameter dict with `symbol=self._prepareSymbol(symbol)` and
`symbols=[self._prepareSymbol(symbol) for symbol in symbols]`, so a `None`
`symbol` raises inside `re.sub` and a `None` `symbols` raises when the
comprehension iterates it — in both cases before `_request` is reached.
-/

/-- The Python exceptions the embedded fragments can raise. -/
inductive PyErr where
  | typeError
deriving DecidableEq

/-- `re.sub("[^A-Za-z0-9]", "", s).upper()` on an actual string. -/
def prepareSymbolStr (s : String) : String :=
  String.mk ((s.data.filter Char.isAlphanum).map Char.toUpper)

/-- `BinanceAsync._prepareSymbol`: `re.sub` raises `TypeError` when its
input is `None`. -/
def prepareSymbol : Option String → Except PyErr String
  | Option.none => Except.error PyErr.typeError
  | some s => Except.ok (prepareSymbolStr s)

/-- Lift an optional string parameter into a payload value. -/
def optStr : Option String → PyVal
  | Option.none => PyVal.vNone
  | some s => PyVal.vStr s

/-- Lift an optional list-of-strings parameter into a payload value. -/
def optStrList : Option (List String) → PyVal
  | Option.none => PyVal.vNone
  | some l => PyVal.vList (l.map PyVal.vStr)

/-- `BinanceAsync.marketInfo` up to the point where `_request` is called:
build the parameter dictionary (evaluating `_prepareSymbol(symbol)` first,
then the `symbols` comprehension) and return the prepared payload of the
request that would be issued (`EXCHANGE_INFO` is a public endpoint, so the
payload is unsigned).  An `Except.error` means the method raised before
issuing any request. -/
def marketInfo (symbol : Option String) (symbols : Option (List String))
    (permissions : Option (List String)) (show_permission_sets : Bool)
    (symbol_status : Option String) :
    Except PyErr (List (String × PyVal)) := do
  let symVal ← prepareSymbol symbol
  let symsVal ← match symbols with
    | Option.none => Except.error PyErr.typeError
    | some l => Except.ok (l.map prepareSymbolStr)
  let params : List (String × PyVal) :=
    [("symbol", PyVal.vStr symVal),
     ("symbols", PyVal.vList (symsVal.map PyVal.vStr)),
     ("permissions", optStrList permissions),
     ("showPermissionSets", PyVal.vBool show_permission_sets),
     ("symboslStatus", optStr symbol_status)]
  return preparePayload params false "" "" ""

/-!
## `BinanceAsync.spotTrades`

`START_MS = self._timestamp(since) if since else None` (likewise for
`until`), then either the 24-hour interval split (both bounds truthy) or
`_tradesCycle`.  For the split branch the per-slice fetch is abstracted as
an oracle on the slice window, and the result is paired with the number of
requests issued, matching the shape of `tradesCycle`.
-/

/-- Milliseconds in 24 hours, the maximum `startTime`/`endTime` distance
accepted by the trades endpoint. -/
def TRADES_INTERVAL : Nat := 1000 * 60 * 60 * 24

/-- `BinanceAsync.spotTrades`: build the parameter dictionary and dispatch
between the interval split and the trades cycle. -/
def spotTrades (symbol : String) (since untl : Option Nat)
    (orderId fromId : Option Nat) (limit : Nat) (enforceLimit : Bool)
    (script : List (List Trade)) (splitFetch : Nat × Nat → List Trade) :
    Option (Nat × List Trade) :=
  let START_MS : Option Nat := if truthy since then since else Option.none
  let END_MS : Option Nat := if truthy untl then untl else Option.none
  let params : TradesParams :=
    { symbol := prepareSymbolStr symbol
      orderId := orderId
      startTime := START_MS
      endTime := END_MS
      fromId := fromId
      limit := limit }
  if truthy START_MS ∧ truthy END_MS then
    some ((splitSlices (START_MS.getD 0) (END_MS.getD 0) TRADES_INTERVAL).length,
      splitRequestInterval (START_MS.getD 0) (END_MS.getD 0) TRADES_INTERVAL
        splitFetch)
  else
    tradesCycle params enforceLimit script

/-!
## `BinanceAsync.klines` and `_baseKlines`

```python
STEP = BASE_STEP * limit
for start in range(START_MS, END_MS + BASE_STEP, STEP + BASE_STEP):
    end = min(END_MS, start + STEP)
    tasks.append(create_task(self._baseKlines(params=dict(..., startTime=start, endTime=end, ...))))
klines = await gather(*tasks)
return klines
```

Unlike `_split_request_interval`, this loop builds a fresh `dict(...)` per
iteration, so each task carries its own slice.  `gather` returns the list
of the per-task results in task-creation order, and that list of lists is
returned without flattening.  `_baseKlines` fetches and field-converts one
slice; it is abstracted as `fetchSlice`, the oracle giving the converted
kline rows of a slice window.
-/

/-- One kline row (the per-field string-to-float conversion of
`_baseKlines` does not change the row structure). -/
abbrev Kline : Type := List Int

/-- The slice windows built by the loop of `klines`: cursors from
`range(START_MS, END_MS + BASE_STEP, STEP + BASE_STEP)`, each with end
`min(END_MS, start + STEP)`. -/
def klinesSlices (startMs endMs baseStep step : Nat) : List (Nat × Nat) :=
  (pyRange startMs (endMs + baseStep) (step + baseStep)).map
    (fun start => (start, min endMs (start + step)))

/-- `BinanceAsync.klines`: one task per slice (each with its own fresh
parameter dict), gathered in slice order and returned unflattened. -/
def klines (startMs endMs baseStep limit : Nat)
    (fetchSlice : Nat × Nat → List Kline) : List (List Kline) :=
  let step := baseStep * limit
  (klinesSlices startMs endMs baseStep step).map fetchSlice

/-!
# Helper lemmas
-/

/-- A nonempty list has a last element. -/
theorem getLast?_eq_some_of_ne_nil {α : Type} (l : List α) (h : l ≠ []) :
    ∃ a, l.getLast? = some a := by
  cases hl : l.getLast? with
  | none => exact absurd (List.getLast?_eq_none_iff.mp hl) h
  | some a => exact ⟨a, rfl⟩

/-- The result of the trades loop does not depend on the payload carried
along: the script of responses drives both the control flow and the
returned data. -/
theorem tradesLoop_payload_irrel (script : List (List Trade)) :
    ∀ (limit : Nat) (p q : TradesParams) (resp : List Trade)
      (acc : List Trade) (count : Nat),
      tradesLoop limit p resp script acc count =
        tradesLoop limit q resp script acc count := by
  induction script with
  | nil =>
    intro limit p q resp acc count
    rw [tradesLoop, tradesLoop]
  | cons r rest ih =>
    intro limit p q resp acc count
    rw [tradesLoop, tradesLoop]
    simp only
    split
    · rfl
    · cases resp.getLast? with
      | none => rfl
      | some a => exact ih ..

/-- One full-page iteration of the trades loop: accumulate the page and
fetch the next scripted response. -/
theorem tradesLoop_step (limit : Nat) (p : TradesParams) (resp resp2 : List Trade)
    (rest : List (List Trade)) (acc : List Trade) (count : Nat)
    (hfull : ¬ resp.length < limit) (hne : resp ≠ []) :
    tradesLoop limit p resp (resp2 :: rest) acc count =
      tradesLoop limit p resp2 rest (acc ++ resp) (count + 1) := by
  obtain ⟨a, ha⟩ := getLast?_eq_some_of_ne_nil resp hne
  rw [tradesLoop]
  simp only [hfull, if_false, ha]
  exact tradesLoop_payload_irrel ..

/-- A partial page ends the trades loop with the accumulated data. -/
theorem tradesLoop_last (limit : Nat) (p : TradesParams) (resp : List Trade)
    (script : List (List Trade)) (acc : List Trade) (count : Nat)
    (hpart : resp.length < limit) :
    tradesLoop limit p resp script acc count = some (count, acc ++ resp) := by
  rw [tradesLoop]
  simp [hpart]

/-- The specification-side entry transform agrees with the skip condition
and the conversion used by the code. -/
theorem specEntry_eq (kv : String × PyVal) :
    specEntry kv =
      if dropValue kv.2 then Option.none else some (kv.1, serializeValue kv.2) := by
  obtain ⟨k, v⟩ := kv
  cases v with
  | vNone => rfl
  | vBool b => rfl
  | vInt n => rfl
  | vStr s =>
    by_cases h : s.length == 0 <;> simp [specEntry, dropValue, serializeValue, h]
  | vList xs =>
    cases xs <;> simp [specEntry, dropValue, serializeValue]

/-- The dictionary-filling loop of `_preparePayload` is the keywise
transform `specEntry`. -/
theorem foldl_prepare_eq_filterMap (l : List (String × PyVal))
    (acc : List (String × PyVal)) :
    l.foldl (fun payload kv =>
        if dropValue kv.2 then payload
        else payload ++ [(kv.1, serializeValue kv.2)]) acc
      = acc ++ l.filterMap specEntry := by
  induction l generalizing acc with
  | nil => simp
  | cons kv rest ih =>
    simp only [List.foldl_cons, List.filterMap_cons, specEntry_eq]
    by_cases h : dropValue kv.2
    · simp [h, ih]
    · simp [h, ih]

/-!
# Claim theorems
-/

/-- Claim C1 (code bug): the claim states that a non-200 status fails the
operation with an `HTTPStatusError` carrying the mapped message.  The code
implements the fixed message table in `_checkHTTPErrors`, but `_request`
never calls it and never inspects the status: for every status code,
including 500, a JSON body is decoded and returned as a success. -/
theorem request_ignores_status_despite_error_table :
    (∀ (status body : Nat),
      request (HttpResponse.mk status (some body)) = Except.ok body) ∧
    checkHTTPErrors 500 = some "Internal Server Error. Try again later" ∧
    checkHTTPErrors 200 = Option.none :=
  ⟨fun _ _ => rfl, by decide, by decide⟩

/-- Claim C2 (code bug): the loop of `_split_request_interval` assigns the
slices the claim describes (for window `[0, 10000]` and span `3000`, the
four slices `[0,3000]`, `[3000,6000]`, `[6000,9000]`, `[9000,10000]`,
matching the specification-side `specSlices`), but all queued tasks read
the shared payload dictionary after the loop, so the four requests actually
issued all carry the last slice `[9000, 10000]`, and the returned list is
four copies of the last-slice result rather than the per-slice results. -/
theorem splitRequestInterval_aliasing_bug :
    splitSlices 0 10000 3000 = [(0, 3000), (3000, 6000), (6000, 9000), (9000, 10000)] ∧
    splitSlices 0 10000 3000 = specSlices 0 10000 3000 ∧
    issuedSlices 0 10000 3000 =
      [(9000, 10000), (9000, 10000), (9000, 10000), (9000, 10000)] ∧
    splitRequestInterval 0 10000 3000 (fun sl => [sl]) =
      [(9000, 10000), (9000, 10000), (9000, 10000), (9000, 10000)] := by
  refine ⟨by decide, by decide, by decide, by decide⟩

/-- Claim C3 (counterexample): with window start equal to window end the
claim announces exactly one slice, but `range(start, start, maxRange)` is
empty, so the splitter produces zero slices and issues zero sub-requests. -/
theorem splitSlices_empty_window_counterexample :
    (splitSlices 5 5 3).length = 0 ∧ ¬ (splitSlices 5 5 3).length = 1 ∧
    splitRequestInterval 5 5 3 (fun sl => [sl]) = [] := by
  refine ⟨by decide, by decide, by decide⟩

/-- Claim C3 (amended): for every window whose start equals its end, the
splitter produces zero slices, issues zero sub-requests, and returns the
empty list. -/
theorem splitSlices_empty_window_zero (startMs maxRange : Nat) {α : Type}
    (func : Nat × Nat → List α) :
    splitSlices startMs startMs maxRange = [] ∧
    splitRequestInterval startMs startMs maxRange func = [] := by
  have h : (maxRange - 1) / maxRange = 0 := by
    cases maxRange with
    | zero => simp
    | succ n => exact Nat.div_eq_of_lt (by omega)
  have hs : splitSlices startMs startMs maxRange = [] := by
    simp [splitSlices, pyRange, h]
  exact ⟨hs, by simp [splitRequestInterval, issuedSlices, hs]⟩

/-- Claim C4 (code bug): for `total = 95`, `itemsPerPage = 20` the loop of
`_paginatedRequests` runs four times with `payload[pageKey]` taking the
values 2, 3, 4, 5 — but the queued tasks all read the shared payload after
the loop, so the four follow-up requests all carry page 5 and the result is
page 1 followed by four copies of page 5 instead of pages 2 to 5.
Additionally, when `itemsPerPage` divides `total` (say 100 and 20) the loop
runs `total / itemsPerPage = 5` times, one more than the
`ceil(total / itemsPerPage) - 1 = 4` the claim announces. -/
theorem paginatedRequests_fanout_bug :
    paginatedRequests 20 (fun p => PageResp.mk [p] 95) = [1, 5, 5, 5, 5] ∧
    loopPageValues 20 95 = [2, 3, 4, 5] ∧
    issuedPages 20 95 = [5, 5, 5, 5] ∧
    followUpCount 20 100 = 5 ∧
    (100 + 20 - 1) / 20 - 1 = 4 := by
  refine ⟨by decide, by decide, by decide, by decide, by decide⟩

/-- Claim C5 (counterexample): the claim promises a single request whenever
an explicit end-time bound is supplied, but the guard is the Python
truthiness of `payload["endTime"]`, so a supplied bound of `0` is treated
as absent: with `endTime = 0`, `limit = 1` and a full page followed by a
partial page the cycle issues two requests and returns the aggregation, not
the single bounded response. -/
theorem tradesCycle_zero_bound_counterexample :
    tradesCycle
        (TradesParams.mk "BTCUSDT" Option.none (some 5) (some 0) Option.none 1)
        false [[Trade.mk 1], []] = some (2, [Trade.mk 1]) ∧
    ¬ (2 = 1) := by
  refine ⟨by decide, by decide⟩

/-- Claim C5 (amended): with a truthy (nonzero) end-time bound the cycle
issues exactly one request and returns that response unchanged, regardless
of its size; without a truthy bound and with `enforceLimit` off, a script
of three full pages followed by one partial page induces exactly four
sequential requests whose responses are concatenated in fetch order. -/
theorem tradesCycle_bounded_and_unbounded :
    (∀ (params : TradesParams) (enforceLimit : Bool) (resp : List Trade)
        (rest : List (List Trade)),
      truthy params.endTime = true →
      tradesCycle params enforceLimit (resp :: rest) = some (1, resp)) ∧
    (∀ (params : TradesParams) (r1 r2 r3 r4 : List Trade),
      truthy params.endTime = false → 0 < params.limit →
      r1.length = params.limit → r2.length = params.limit →
      r3.length = params.limit → r4.length < params.limit →
      tradesCycle params false [r1, r2, r3, r4] =
        some (4, r1 ++ r2 ++ r3 ++ r4)) := by
  constructor
  · intro params enforceLimit resp rest hend
    rw [tradesCycle]
    simp [hend]
  · intro params r1 r2 r3 r4 hend hpos h1 h2 h3 h4
    have ne1 : r1 ≠ [] := by intro he; rw [he] at h1; simp at h1; omega
    have ne2 : r2 ≠ [] := by intro he; rw [he] at h2; simp at h2; omega
    have ne3 : r3 ≠ [] := by intro he; rw [he] at h3; simp at h3; omega
    rw [tradesCycle]
    simp only [hend, Bool.false_eq_true, if_false]
    rw [tradesLoop_step _ _ _ _ _ _ _ (by omega) ne1,
        tradesLoop_step _ _ _ _ _ _ _ (by omega) ne2,
        tradesLoop_step _ _ _ _ _ _ _ (by omega) ne3,
        tradesLoop_last _ _ _ _ _ _ h4]
    simp [List.append_assoc]

/-- Witness for claim C5: both parts instantiated, the bounded case with
`endTime = 99` and the unbounded case with `limit = 2` and the script of
three full pages and one partial page. -/
theorem tradesCycle_bounded_and_unbounded_witness :
    tradesCycle
        (TradesParams.mk "BTCUSDT" Option.none Option.none (some 99) Option.none 1)
        false [[Trade.mk 7], [Trade.mk 8]] = some (1, [Trade.mk 7]) ∧
    tradesCycle
        (TradesParams.mk "BTCUSDT" Option.none Option.none Option.none Option.none 2)
        false [[Trade.mk 1, Trade.mk 2], [Trade.mk 3, Trade.mk 4],
               [Trade.mk 5, Trade.mk 6], [Trade.mk 7]] =
      some (4, [Trade.mk 1, Trade.mk 2] ++ [Trade.mk 3, Trade.mk 4] ++
        [Trade.mk 5, Trade.mk 6] ++ [Trade.mk 7]) :=
  ⟨tradesCycle_bounded_and_unbounded.1 _ false [Trade.mk 7] [[Trade.mk 8]]
      (by decide),
   tradesCycle_bounded_and_unbounded.2 _ [Trade.mk 1, Trade.mk 2]
      [Trade.mk 3, Trade.mk 4] [Trade.mk 5, Trade.mk 6] [Trade.mk 7]
      (by decide) (by decide) (by decide) (by decide) (by decide) (by decide)⟩

/-- Claim C6: the prepared payload drops every key whose value is `None` or
an empty collection, serializes booleans as the lowercase strings `true`
and `false`, serializes lists as compact JSON text, keeps other values
verbatim; in particular the dictionary of the claim becomes
`c = "true"`, `d = "[1,2]"`, `e = "x"`. -/
theorem preparePayload_drops_and_serializes :
    (∀ (params : List (String × PyVal)) (recvWindow timestamp signature : String),
      preparePayload params false recvWindow timestamp signature =
        params.filterMap specEntry) ∧
    preparePayload
        [("a", PyVal.vNone), ("b", PyVal.vList []), ("c", PyVal.vBool true),
         ("d", PyVal.vList [PyVal.vInt 1, PyVal.vInt 2]), ("e", PyVal.vStr "x")]
        false "" "" "" =
      [("c", PyVal.vStr "true"), ("d", PyVal.vStr "[1,2]"), ("e", PyVal.vStr "x")] := by
  refine ⟨fun params r t s => ?_, rfl⟩
  simp [preparePayload, foldl_prepare_eq_filterMap]

/-- Claim C8: every `marketInfo` call in which `symbol` is `None` or
`symbols` is `None` (in particular the defaults) raises `TypeError` before
any request is issued: `re.sub` rejects `None`, and the list comprehension
cannot iterate `None`. -/
theorem marketInfo_none_raises_typeError (symbol : Option String)
    (symbols : Option (List String)) (permissions : Option (List String))
    (sps : Bool) (symbol_status : Option String)
    (h : symbol = Option.none ∨ symbols = Option.none) :
    marketInfo symbol symbols permissions sps symbol_status =
      Except.error PyErr.typeError := by
  rcases h with h | h
  · subst h; rfl
  · subst h
    cases symbol with
    | none => rfl
    | some s => rfl

/-- Witness for claim C8: the defaulted `symbol` and the defaulted
`symbols` each abort the call with `TypeError`. -/
theorem marketInfo_none_raises_typeError_witness :
    marketInfo Option.none (some ["BNBBTC"]) Option.none true Option.none =
      Except.error PyErr.typeError ∧
    marketInfo (some "BNBBTC") Option.none Option.none true Option.none =
      Except.error PyErr.typeError :=
  ⟨marketInfo_none_raises_typeError _ _ _ _ _ (Or.inl rfl),
   marketInfo_none_raises_typeError _ _ _ _ _ (Or.inr rfl)⟩

/-- Claim C9: a `spotTrades` call with `enforceLimit = True` and no truthy
end-time bound issues exactly one request through `_tradesCycle` and
returns the empty list, discarding the fetched response: the accumulation
loop is guarded by `while not enforceLimit`. -/
theorem spotTrades_enforceLimit_discards (symbol : String)
    (since untl orderId fromId : Option Nat) (limit : Nat)
    (r : List Trade) (rest : List (List Trade))
    (splitFetch : Nat × Nat → List Trade)
    (huntl : truthy untl = false) :
    spotTrades symbol since untl orderId fromId limit true (r :: rest) splitFetch =
      some (1, []) := by
  simp only [spotTrades, huntl]
  simp [tradesCycle, truthy]

/-- Witness for claim C9: a concrete `spotTrades` call with
`enforceLimit = True`, no bounds, and a nonempty first response returns
one request and the empty list. -/
theorem spotTrades_enforceLimit_discards_witness :
    spotTrades "BTCUSDT" Option.none Option.none Option.none Option.none 3 true
      [[Trade.mk 1], [Trade.mk 2]] (fun _ => []) = some (1, []) :=
  spotTrades_enforceLimit_discards "BTCUSDT" Option.none Option.none Option.none
    Option.none 3 [Trade.mk 1] [[Trade.mk 2]] (fun _ => []) rfl

/-- Claim C10: a `klines` call spanning more than one slice returns the
unflattened list produced by `gather`: one element per time slice, each
element the list of the klines of that slice, in slice order. -/
theorem klines_returns_nested_per_slice (startMs endMs baseStep limit : Nat)
    (fetchSlice : Nat × Nat → List Kline)
    (h : 1 < (klinesSlices startMs endMs baseStep (baseStep * limit)).length) :
    klines startMs endMs baseStep limit fetchSlice =
      (klinesSlices startMs endMs baseStep (baseStep * limit)).map fetchSlice ∧
    (klines startMs endMs baseStep limit fetchSlice).length =
      (klinesSlices startMs endMs baseStep (baseStep * limit)).length ∧
    1 < (klines startMs endMs baseStep limit fetchSlice).length := by
  refine ⟨rfl, by simp [klines], ?_⟩
  simpa [klines] using h

/-- Witness for claim C10: a concrete two-slice call returns a two-element
nested list, one inner list per slice, in slice order. -/
theorem klines_returns_nested_per_slice_witness :
    1 < (klinesSlices 0 5 1 (1 * 2)).length ∧
    klines 0 5 1 2 (fun sl => [[(sl.1 : Int), (sl.2 : Int)]]) =
      (klinesSlices 0 5 1 (1 * 2)).map (fun sl => [[(sl.1 : Int), (sl.2 : Int)]]) :=
  ⟨by decide,
   (klines_returns_nested_per_slice 0 5 1 2
      (fun sl => [[(sl.1 : Int), (sl.2 : Int)]]) (by decide)).1⟩

end Aiobinance

